import Mathlib

/-!
Shallow embedding of `respreader/response-reader.go` (package `respreader`).

The Go package frames responses of prompt/response protocols: a background
goroutine (`readInput`, the byte pump) reads from the underlying `io.Reader`
into a fixed scratch buffer and forwards every non-empty result on an
unbuffered channel `dataChan`; `Read` and `Flush` aggregate chunks from that
channel under two timeouts (`timeout` for time-to-first-byte, `chunkTimeout`
for the inter-chunk gap).

Modelling choices:
- Bytes are `Nat`, buffers are `List Nat`, durations and instants are `Nat`.
- The channel activity observed by one `Read`/`Flush` call is a list of timed
  events: `chunk t d` (a receive of data `d` completing at time `t`, with
  `ok = true`) or `closeq t` (a receive from the closed channel at time `t`,
  with `ok = false` and nil data).  The call starts at time 0.  A running
  timer with absolute deadline `dl` loses the `select` race to an event at
  time `t` exactly when `t < dl`; when no event precedes the deadline the
  timer fires (Go timers always eventually fire).  Ties (`t = dl`) are a
  genuine scheduler race in Go and are outside every hypothesis below.
- `Read`/`Flush` return, besides the Go results, the final buffer contents
  (Go mutates the caller's slice in place) and the channel events they did
  not consume, so that consecutive calls against the same stream compose.
- The underlying writer of the duplex adapters is an abstract function
  `List Nat → Nat × Option GoError`; the underlying closer is an abstract
  stateful object returning the result of its n-th `Close` call.
- The pump is a function of the trace of underlying read calls (bytes left
  in the scratch buffer and returned length) plus the iteration index, if
  any, at which it first observes `closed = true`.
-/

namespace Respreader

/-- Errors of the Go code: `io.EOF`, `ErrorTimeout`, the
`errors.New("must supply non-zero length buffer")` of `Read`, and verbatim
errors of the underlying stream. A Go `nil` error is `Option.none`. -/
inductive GoError where
  | eof : GoError
  | errorTimeout : GoError
  | invalidBuffer : GoError
  | underlying : String → GoError
deriving DecidableEq, Repr

/-- The `ResponseReader` struct. The Go fields `reader` (the underlying
`io.Reader`) and `dataChan` (the unbuffered channel) are modelled externally:
the reader as a trace of read-call results fed to `readInput`, the channel as
the event list fed to `Read`/`Flush`. -/
structure ResponseReader where
  timeout : Nat
  chunkTimeout : Nat
  size : Nat
  closed : Bool
deriving DecidableEq, Repr

/-- Go `NewResponseReader`: sets both timeouts, `size = 128`, a fresh open
channel (`closed` starts false). -/
def NewResponseReader (timeout chunkTimeout : Nat) : ResponseReader :=
  { timeout := timeout, chunkTimeout := chunkTimeout, size := 128, closed := false }

/-- One channel event observed by a `select` on `rr.dataChan`:
`chunk t d` is `newData = d, ok = true` completing at absolute time `t`;
`closeq t` is the closed-channel receive (`newData = nil, ok = false`) at
time `t`. -/
inductive TEvent where
  | chunk : Nat → List Nat → TEvent
  | closeq : Nat → TEvent
deriving DecidableEq, Repr

/-- The time at which an event becomes available. -/
def TEvent.time : TEvent → Nat
  | .chunk t _ => t
  | .closeq t => t

/-- The copy loop of `Read`:
`for i := 0; count < len(buffer) && i < len(newData); i++ {
buffer[count] = newData[i]; count++ }`.
Returns the updated buffer and `count`. -/
def copyLoop (buffer : List Nat) (count : Nat) : List Nat → List Nat × Nat
  | [] => (buffer, count)
  | b :: rest =>
    if count < buffer.length then copyLoop (buffer.set count b) (count + 1) rest
    else (buffer, count)

/-- Result of a `Read` call: the caller's buffer after the call (Go mutates
it in place), the returned count, the returned error, and the channel events
the call did not consume. -/
structure ReadResult where
  buffer : List Nat
  count : Nat
  err : Option GoError
  pending : List TEvent
deriving DecidableEq, Repr

/-- The `case <-timeout.C` branch of `Read`: with `count > 0` return
`(count, nil)`, otherwise `(count, ErrorTimeout)`. -/
def timerResult (buffer : List Nat) (count : Nat) (pending : List TEvent) : ReadResult :=
  if 0 < count then ⟨buffer, count, none, pending⟩
  else ⟨buffer, count, some .errorTimeout, pending⟩

/-- The `for { select { ... } }` loop of `Read`, with `dl` the absolute
deadline of the running timer. A `chunk` event beating the timer is copied
(then `timeout.Reset(rr.chunkTimeout)`, i.e. the new deadline is its arrival
time plus `ct`); a `closeq` event beating the timer copies nil (a no-op) and
returns `(count, io.EOF)`; otherwise the timer fires. -/
def readLoop (ct : Nat) (buffer : List Nat) (count : Nat) (dl : Nat) :
    List TEvent → ReadResult
  | [] => timerResult buffer count []
  | .chunk t d :: rest =>
    if t < dl then
      readLoop ct (copyLoop buffer count d).1 (copyLoop buffer count d).2 (t + ct) rest
    else timerResult buffer count (.chunk t d :: rest)
  | .closeq t :: rest =>
    if t < dl then
      ⟨(copyLoop buffer count []).1, (copyLoop buffer count []).2, some .eof, rest⟩
    else timerResult buffer count (.closeq t :: rest)

/-- Go `ResponseReader.Read`: reject a zero-length buffer with
`errors.New("must supply non-zero length buffer")`, else start a timer at
`rr.timeout` (absolute deadline `rr.timeout`, the call starting at time 0)
and run the loop with `count = 0`. -/
def ResponseReader.Read (rr : ResponseReader) (buffer : List Nat) (evs : List TEvent) :
    ReadResult :=
  if buffer.length ≤ 0 then ⟨buffer, 0, some .invalidBuffer, evs⟩
  else readLoop rr.chunkTimeout buffer 0 rr.timeout evs

/-- Result of a `Flush` call: returned count, returned error, unconsumed
channel events. -/
structure FlushResult where
  count : Nat
  err : Option GoError
  pending : List TEvent
deriving DecidableEq, Repr

/-- The `for { select { ... } }` loop of `Flush`: each chunk beating the
timer adds its length to `count` and resets the deadline to arrival time
plus `ct`; a closed-channel receive adds `len(nil) = 0` and returns
`(count, io.EOF)`; timer expiry returns `(count, nil)`. -/
def flushLoop (ct : Nat) (count : Nat) (dl : Nat) : List TEvent → FlushResult
  | [] => ⟨count, none, []⟩
  | .chunk t d :: rest =>
    if t < dl then flushLoop ct (count + d.length) (t + ct) rest
    else ⟨count, none, .chunk t d :: rest⟩
  | .closeq t :: rest =>
    if t < dl then ⟨count + 0, some .eof, rest⟩
    else ⟨count, none, .closeq t :: rest⟩

/-- Go `ResponseReader.Flush`: start a timer at `rr.chunkTimeout` and run the
loop with `count = 0`. -/
def ResponseReader.Flush (rr : ResponseReader) (evs : List TEvent) : FlushResult :=
  flushLoop rr.chunkTimeout 0 rr.chunkTimeout evs

/-- One call of the pump against the underlying `io.Reader`:
`bytes` is the scratch buffer contents after the call returned (the pump
allocates it with length `rr.size`), `length` the returned count, `err` the
returned error (discarded by the pump: `length, _ := rr.reader.Read(tmp)`). -/
structure ReadCall where
  bytes : List Nat
  length : Nat
  err : Option GoError
deriving DecidableEq, Repr

/-- Whether the pump observes `rr.closed = true` at the start of its `i`-th
iteration; `closedAt = some k` means the flag is seen set from iteration `k`
on, `none` that it is never set. -/
def closedObserved (closedAt : Option Nat) (i : Nat) : Bool :=
  match closedAt with
  | some k => decide (k ≤ i)
  | none => false

/-- The pump loop `readInput`, from iteration `i` on, given the trace of
underlying read calls still to come. Per iteration: if `closed` is observed,
break and `close(rr.dataChan)`; else perform the next read; if it returned
`length > 0`, send `tmp[0:length]` on the channel. Returns the chunks
delivered in order and whether the channel was closed (if the trace runs out
the underlying read blocks forever and the pump never exits). -/
def readInput (closedAt : Option Nat) : Nat → List ReadCall → List (List Nat) × Bool
  | i, [] => if closedObserved closedAt i then ([], true) else ([], false)
  | i, c :: rest =>
    if closedObserved closedAt i then ([], true)
    else if 0 < c.length then
      (c.bytes.take c.length :: (readInput closedAt (i + 1) rest).1,
        (readInput closedAt (i + 1) rest).2)
    else readInput closedAt (i + 1) rest

/-- The data components of a pump read trace: everything except the errors
the pump discards. -/
def rcView (c : ReadCall) : List Nat × Nat := (c.bytes, c.length)

/-- An abstract stateful `io.Closer`: `results n` is the error returned by
its n-th `Close` call (0-indexed), `calls` how many times it has been
closed. -/
structure Closer where
  results : Nat → Option GoError
  calls : Nat

/-- One `Close` call on the underlying closer. -/
def Closer.Close (c : Closer) : Option GoError × Closer :=
  (c.results c.calls, { c with calls := c.calls + 1 })

/-- Go `ResponseReadWriter`: engine plus abstract underlying writer. -/
structure ResponseReadWriter where
  writer : List Nat → Nat × Option GoError
  reader : ResponseReader

/-- Go `NewResponseReadWriter`. -/
def NewResponseReadWriter (writer : List Nat → Nat × Option GoError)
    (timeout chunkTimeout : Nat) : ResponseReadWriter :=
  { writer := writer, reader := NewResponseReader timeout chunkTimeout }

/-- Go `ResponseReadWriter.Read`: delegates to the engine. -/
def ResponseReadWriter.Read (rrw : ResponseReadWriter) (buffer : List Nat)
    (evs : List TEvent) : ReadResult :=
  rrw.reader.Read buffer evs

/-- Go `ResponseReadWriter.Write`:
`n, err := rrw.reader.Flush(); if err != nil { return n, err };
return rrw.writer.Write(buffer)`. -/
def ResponseReadWriter.Write (rrw : ResponseReadWriter) (buffer : List Nat)
    (evs : List TEvent) : Nat × Option GoError :=
  match (rrw.reader.Flush evs).err with
  | some e => ((rrw.reader.Flush evs).count, some e)
  | none => rrw.writer buffer

/-- Go `ResponseReadWriteCloser`: engine plus abstract underlying writer and
closer. -/
structure ResponseReadWriteCloser where
  closer : Closer
  writer : List Nat → Nat × Option GoError
  reader : ResponseReader

/-- Go `ResponseReadWriteCloser.Read`: delegates to the engine. -/
def ResponseReadWriteCloser.Read (rrwc : ResponseReadWriteCloser) (buffer : List Nat)
    (evs : List TEvent) : ReadResult :=
  rrwc.reader.Read buffer evs

/-- Go `ResponseReadWriteCloser.Write`: flush, propagate a non-nil flush error,
else forward the write. -/
def ResponseReadWriteCloser.Write (rrwc : ResponseReadWriteCloser) (buffer : List Nat)
    (evs : List TEvent) : Nat × Option GoError :=
  match (rrwc.reader.Flush evs).err with
  | some e => ((rrwc.reader.Flush evs).count, some e)
  | none => rrwc.writer buffer

/-- Go `ResponseReadWriteCloser.Close`:
`rrwc.reader.closed = true; return rrwc.closer.Close()`.
Returns the forwarded error and the post-state. -/
def ResponseReadWriteCloser.Close (rrwc : ResponseReadWriteCloser) :
    Option GoError × ResponseReadWriteCloser :=
  let rr := { rrwc.reader with closed := true }
  let res := rrwc.closer.Close
  (res.1, { rrwc with reader := rr, closer := res.2 })

/-- Go `ResponseReadCloser`: engine plus abstract underlying closer. -/
structure ResponseReadCloser where
  closer : Closer
  reader : ResponseReader

/-- Go `ResponseReadCloser.Read`: delegates to the engine. -/
def ResponseReadCloser.Read (rrc : ResponseReadCloser) (buffer : List Nat)
    (evs : List TEvent) : ReadResult :=
  rrc.reader.Read buffer evs

/-- Go `ResponseReadCloser.Close`:
`rrwc.reader.closed = true; return rrwc.closer.Close()`. -/
def ResponseReadCloser.Close (rrc : ResponseReadCloser) :
    Option GoError × ResponseReadCloser :=
  let rr := { rrc.reader with closed := true }
  let res := rrc.closer.Close
  (res.1, { rrc with reader := rr, closer := res.2 })

/-- The timer wins the `select` race outright: either no further channel
event exists, or the next one becomes available no earlier than the
deadline. -/
def timerFirst (dl : Nat) : List TEvent → Prop
  | [] => True
  | e :: _ => dl ≤ e.time

instance (dl : Nat) (evs : List TEvent) : Decidable (timerFirst dl evs) := by
  cases evs with
  | nil => exact isTrue trivial
  | cons e rest => exact inferInstanceAs (Decidable (dl ≤ e.time))

/-! Lemmas about the copy loop. -/

theorem copyLoop_length : ∀ (d buffer : List Nat) (count : Nat),
    (copyLoop buffer count d).1.length = buffer.length := by
  intro d
  induction d with
  | nil => intro buffer count; rfl
  | cons b ds ih =>
    intro buffer count
    by_cases hc : count < buffer.length
    · rw [copyLoop, if_pos hc, ih]
      exact List.length_set ..
    · rw [copyLoop, if_neg hc]

/-- Exact effect of the copy loop: with `m = min (len newData) (len buffer - count)`
bytes of room used, the buffer gains `newData.take m` at offset `count` and the
count advances by `m`. -/
theorem copyLoop_spec : ∀ (d buffer : List Nat) (count : Nat), count ≤ buffer.length →
    copyLoop buffer count d =
      (buffer.take count ++ d.take (min d.length (buffer.length - count)) ++
        buffer.drop (count + min d.length (buffer.length - count)),
       count + min d.length (buffer.length - count)) := by
  intro d
  induction d with
  | nil =>
    intro buffer count _
    simp [copyLoop]
  | cons b ds ih =>
    intro buffer count h
    by_cases hc : count < buffer.length
    · have hset : (buffer.set count b).length = buffer.length := List.length_set ..
      have h' : count + 1 ≤ (buffer.set count b).length := by rw [hset]; omega
      have hrec := ih (buffer.set count b) (count + 1) h'
      rw [hset] at hrec
      have hm : min ((b :: ds).length) (buffer.length - count)
          = min ds.length (buffer.length - (count + 1)) + 1 := by
        simp only [List.length_cons]
        omega
      have hseteq : buffer.set count b
          = buffer.take count ++ b :: buffer.drop (count + 1) :=
        List.set_eq_take_cons_drop b hc
      have hlt : (buffer.take count).length = count := by
        rw [List.length_take]; omega
      have htake : (buffer.set count b).take (count + 1)
          = buffer.take count ++ [b] := by
        rw [hseteq, show count + 1 = (buffer.take count).length + 1 from by rw [hlt],
          List.take_append]
        rfl
      have hdrop : ∀ j : Nat, (buffer.set count b).drop (count + 1 + j)
          = buffer.drop (count + 1 + j) := by
        intro j
        rw [hseteq, show count + 1 + j = (buffer.take count).length + (j + 1) from by
          rw [hlt]; omega, List.drop_append, List.drop_succ_cons, List.drop_drop]
        congr 1
        omega
      rw [copyLoop, if_pos hc, hrec, hm]
      refine Prod.ext ?_ ?_
      · show _ = buffer.take count ++ (b :: ds).take _ ++ _
        rw [htake, List.take_succ_cons, hdrop]
        rw [show count + (min ds.length (buffer.length - (count + 1)) + 1)
            = count + 1 + min ds.length (buffer.length - (count + 1)) from by omega]
        simp [List.append_assoc]
      · show count + 1 + _ = count + _
        omega
    · have hz : buffer.length - count = 0 := by omega
      rw [copyLoop, if_neg hc]
      simp only [hz, Nat.min_zero, List.take_zero, List.append_nil, Nat.add_zero,
        List.nil_append]
      rw [List.take_append_drop]

theorem copyLoop_snd (d buffer : List Nat) (count : Nat) (h : count ≤ buffer.length) :
    (copyLoop buffer count d).2 = count + min d.length (buffer.length - count) := by
  rw [copyLoop_spec d buffer count h]

theorem copyLoop_count_le (d buffer : List Nat) (count : Nat) (h : count ≤ buffer.length) :
    count ≤ (copyLoop buffer count d).2 ∧ (copyLoop buffer count d).2 ≤ buffer.length := by
  rw [copyLoop_snd d buffer count h]
  omega

theorem copyLoop_full (d buffer : List Nat) (count : Nat) (h : buffer.length ≤ count) :
    copyLoop buffer count d = (buffer, count) := by
  cases d with
  | nil => rfl
  | cons b ds => rw [copyLoop, if_neg (by omega)]

/-! The Read loop: count bounds and result trichotomy. -/

theorem readLoop_complete : ∀ (evs : List TEvent) (ct : Nat) (buffer : List Nat)
    (count dl : Nat), count ≤ buffer.length →
    count ≤ (readLoop ct buffer count dl evs).count ∧
    (readLoop ct buffer count dl evs).count ≤ buffer.length ∧
    (readLoop ct buffer count dl evs).buffer.length = buffer.length ∧
    (((readLoop ct buffer count dl evs).err = none ∧
        0 < (readLoop ct buffer count dl evs).count) ∨
      ((readLoop ct buffer count dl evs).err = some .errorTimeout ∧
        (readLoop ct buffer count dl evs).count = 0) ∨
      (readLoop ct buffer count dl evs).err = some .eof) := by
  intro evs
  induction evs with
  | nil =>
    intro ct buffer count dl h
    by_cases h0 : 0 < count <;>
      simp [readLoop, timerResult, h0, h] <;> omega
  | cons e rest ih =>
    intro ct buffer count dl h
    match e with
    | .chunk t d =>
      by_cases ht : t < dl
      · have hlen := copyLoop_length d buffer count
        have hle := copyLoop_count_le d buffer count h
        have hrec := ih ct (copyLoop buffer count d).1 (copyLoop buffer count d).2
          (t + ct) (by omega)
        simp only [readLoop, if_pos ht]
        refine ⟨by omega, by omega, by omega, ?_⟩
        exact hrec.2.2.2
      · by_cases h0 : 0 < count <;>
          simp [readLoop, ht, timerResult, h0, h] <;> omega
    | .closeq t =>
      by_cases ht : t < dl
      · simp [readLoop, ht, copyLoop, h]
      · by_cases h0 : 0 < count <;>
          simp [readLoop, ht, timerResult, h0, h] <;> omega

/-- C1: for every `Read` with a non-empty buffer, the returned count never
exceeds the buffer's length, and the result is exactly one of success (nil
error with at least one byte), `ErrorTimeout` with zero bytes, or `io.EOF`
with the bytes copied so far; a nil error never comes with a zero count. -/
theorem c1_read_trichotomy (rr : ResponseReader) (buffer : List Nat)
    (evs : List TEvent) (h : buffer ≠ []) :
    (rr.Read buffer evs).count ≤ buffer.length ∧
    (((rr.Read buffer evs).err = none ∧ 1 ≤ (rr.Read buffer evs).count) ∨
      ((rr.Read buffer evs).err = some .errorTimeout ∧ (rr.Read buffer evs).count = 0) ∨
      (rr.Read buffer evs).err = some .eof) := by
  have hlen : ¬ buffer.length ≤ 0 := by
    cases buffer with
    | nil => exact absurd rfl h
    | cons a l => simp
  unfold ResponseReader.Read
  rw [if_neg hlen]
  have hres := readLoop_complete evs rr.chunkTimeout buffer 0 rr.timeout (Nat.zero_le _)
  exact ⟨hres.2.1, hres.2.2.2⟩

/-- Concrete instance of C1: a two-byte buffer, one chunk arriving in time. -/
theorem c1_read_trichotomy_witness :
    ([0, 0] : List Nat) ≠ [] ∧
    (((NewResponseReader 10 3).Read [0, 0] [.chunk 1 [7]]).count ≤ ([0, 0] : List Nat).length ∧
      ((((NewResponseReader 10 3).Read [0, 0] [.chunk 1 [7]]).err = none ∧
          1 ≤ ((NewResponseReader 10 3).Read [0, 0] [.chunk 1 [7]]).count) ∨
        (((NewResponseReader 10 3).Read [0, 0] [.chunk 1 [7]]).err = some .errorTimeout ∧
          ((NewResponseReader 10 3).Read [0, 0] [.chunk 1 [7]]).count = 0) ∨
        ((NewResponseReader 10 3).Read [0, 0] [.chunk 1 [7]]).err = some .eof)) :=
  ⟨by decide, c1_read_trichotomy (NewResponseReader 10 3) [0, 0] [.chunk 1 [7]] (by decide)⟩

/-! Timer-expiry helpers shared by the Read and Flush developments. -/

theorem readLoop_of_timerFirst (ct : Nat) (buffer : List Nat) (count dl : Nat)
    (evs : List TEvent) (h : timerFirst dl evs) :
    readLoop ct buffer count dl evs = timerResult buffer count evs := by
  match evs with
  | [] => rfl
  | .chunk t d :: rest =>
    have ht : ¬ t < dl := by
      have := h
      simp only [timerFirst, TEvent.time] at this
      omega
    rw [readLoop, if_neg ht]
  | .closeq t :: rest =>
    have ht : ¬ t < dl := by
      have := h
      simp only [timerFirst, TEvent.time] at this
      omega
    rw [readLoop, if_neg ht]

theorem flushLoop_of_timerFirst (ct : Nat) (count dl : Nat)
    (evs : List TEvent) (h : timerFirst dl evs) :
    flushLoop ct count dl evs = ⟨count, none, evs⟩ := by
  match evs with
  | [] => rfl
  | .chunk t d :: rest =>
    have ht : ¬ t < dl := by
      have := h
      simp only [timerFirst, TEvent.time] at this
      omega
    rw [flushLoop, if_neg ht]
  | .closeq t :: rest =>
    have ht : ¬ t < dl := by
      have := h
      simp only [timerFirst, TEvent.time] at this
      omega
    rw [flushLoop, if_neg ht]

/-- C3: at timer expiry the loop returns the accumulated bytes with a nil
error when at least one byte was copied, and `ErrorTimeout` with zero bytes
exactly when none was; consequently a stream delivering nothing within the
overall window (every channel event at or after the `rr.timeout` deadline)
makes `Read` return 0 bytes and `ErrorTimeout`. -/
theorem c3_timer_expiry :
    (∀ (ct : Nat) (buffer : List Nat) (count dl : Nat) (evs : List TEvent),
      timerFirst dl evs →
      readLoop ct buffer count dl evs = timerResult buffer count evs ∧
      (0 < count → timerResult buffer count evs = ⟨buffer, count, none, evs⟩) ∧
      (count = 0 → timerResult buffer count evs = ⟨buffer, 0, some .errorTimeout, evs⟩)) ∧
    (∀ (rr : ResponseReader) (buffer : List Nat) (evs : List TEvent),
      buffer ≠ [] → timerFirst rr.timeout evs →
      rr.Read buffer evs = ⟨buffer, 0, some .errorTimeout, evs⟩) := by
  constructor
  · intro ct buffer count dl evs h
    refine ⟨readLoop_of_timerFirst ct buffer count dl evs h, ?_, ?_⟩
    · intro h0
      rw [timerResult, if_pos h0]
    · intro h0
      subst h0
      rfl
  · intro rr buffer evs hb h
    have hlen : ¬ buffer.length ≤ 0 := by
      cases buffer with
      | nil => exact absurd rfl hb
      | cons a l => simp
    unfold ResponseReader.Read
    rw [if_neg hlen, readLoop_of_timerFirst rr.chunkTimeout buffer 0 rr.timeout evs h]
    rfl

/-- Concrete instance of C3: silence for the whole overall window (a single
chunk arriving exactly at the deadline loses the race). -/
theorem c3_timer_expiry_witness :
    (timerFirst 7 [.chunk 7 [1]] ∧
      readLoop 2 [0] 1 7 [.chunk 7 [1]] = timerResult [0] 1 [.chunk 7 [1]]) ∧
    (([0, 0] : List Nat) ≠ [] ∧ timerFirst 7 [.chunk 9 [1]] ∧
      (NewResponseReader 7 2).Read [0, 0] [.chunk 9 [1]] =
        ⟨[0, 0], 0, some .errorTimeout, [.chunk 9 [1]]⟩) :=
  ⟨⟨by decide, (c3_timer_expiry.1 2 [0] 1 7 [.chunk 7 [1]] (by decide)).1⟩,
    by decide, by decide,
    c3_timer_expiry.2 (NewResponseReader 7 2) [0, 0] [.chunk 9 [1]] (by decide) (by decide)⟩

/-- C4: when the hand-off queue reports closed, `Read` returns the bytes
copied so far in the call with `io.EOF` — stated on the loop at an arbitrary
accumulated `count`, and on `Read` for a call that first accumulates a chunk
and then sees the close. -/
theorem c4_closed_queue_eof :
    (∀ (ct : Nat) (buffer : List Nat) (count dl t : Nat) (rest : List TEvent),
      t < dl →
      readLoop ct buffer count dl (.closeq t :: rest) = ⟨buffer, count, some .eof, rest⟩) ∧
    (∀ (rr : ResponseReader) (buffer d : List Nat) (t1 t2 : Nat) (rest : List TEvent),
      buffer ≠ [] → t1 < rr.timeout → t2 < t1 + rr.chunkTimeout →
      rr.Read buffer (.chunk t1 d :: .closeq t2 :: rest) =
        ⟨(copyLoop buffer 0 d).1, (copyLoop buffer 0 d).2, some .eof, rest⟩) := by
  constructor
  · intro ct buffer count dl t rest ht
    rw [readLoop, if_pos ht]
    rfl
  · intro rr buffer d t1 t2 rest hb ht1 ht2
    have hlen : ¬ buffer.length ≤ 0 := by
      cases buffer with
      | nil => exact absurd rfl hb
      | cons a l => simp
    unfold ResponseReader.Read
    rw [if_neg hlen, readLoop, if_pos ht1, readLoop, if_pos ht2]
    rfl

/-- Concrete instance of C4: one byte accumulated, then the queue closes;
`Read` returns that byte with `io.EOF`. -/
theorem c4_closed_queue_eof_witness :
    (readLoop 2 [0, 0] 1 9 [.closeq 3] = ⟨[0, 0], 1, some .eof, []⟩) ∧
    (([0, 0] : List Nat) ≠ [] ∧ (1 : Nat) < (NewResponseReader 9 2).timeout ∧
      (2 : Nat) < 1 + (NewResponseReader 9 2).chunkTimeout ∧
      (NewResponseReader 9 2).Read [0, 0] [.chunk 1 [5], .closeq 2] =
        ⟨(copyLoop [0, 0] 0 [5]).1, (copyLoop [0, 0] 0 [5]).2, some .eof, []⟩) :=
  ⟨c4_closed_queue_eof.1 2 [0, 0] 1 9 3 [] (by decide),
    by decide, by decide, by decide,
    c4_closed_queue_eof.2 (NewResponseReader 9 2) [0, 0] [5] 1 2 []
      (by decide) (by decide) (by decide)⟩

/-- C8: a zero-length buffer makes `Read` fail immediately with the
invalid-argument error, a zero count, an unchanged buffer, and the whole
event stream unconsumed (nothing is taken from the hand-off queue; the
engine value itself is untouched since `Read` is a pure function of it). -/
theorem c8_zero_length_buffer (rr : ResponseReader) (buffer : List Nat)
    (evs : List TEvent) (h : buffer.length = 0) :
    rr.Read buffer evs = ⟨buffer, 0, some .invalidBuffer, evs⟩ := by
  unfold ResponseReader.Read
  rw [if_pos (by omega)]

/-- Concrete instance of C8. -/
theorem c8_zero_length_buffer_witness :
    ([] : List Nat).length = 0 ∧
    (NewResponseReader 5 2).Read [] [.chunk 0 [1, 2]] =
      ⟨[], 0, some .invalidBuffer, [.chunk 0 [1, 2]]⟩ :=
  ⟨by decide, c8_zero_length_buffer (NewResponseReader 5 2) [] [.chunk 0 [1, 2]] (by decide)⟩

/-! A full buffer never stops the loop by itself. -/

theorem readLoop_full_chunk (ct dl t : Nat) (buffer d : List Nat) (rest : List TEvent)
    (ht : t < dl) :
    readLoop ct buffer buffer.length dl (.chunk t d :: rest) =
      readLoop ct buffer buffer.length (t + ct) rest := by
  rw [readLoop, if_pos ht, copyLoop_full d buffer buffer.length le_rfl]

/-- C10: once `count` equals the buffer length, `Read` keeps looping — every
chunk arriving before the active deadline is consumed with all its bytes
discarded and the timer reset to its arrival time plus `chunkTimeout` — and
the full buffer is returned only when the timer finally expires (nil error)
or the queue closes (`io.EOF`). -/
theorem c10_full_buffer_loops :
    (∀ (ct dl t : Nat) (buffer d : List Nat) (rest : List TEvent), t < dl →
      readLoop ct buffer buffer.length dl (.chunk t d :: rest) =
        readLoop ct buffer buffer.length (t + ct) rest) ∧
    (∀ (ct : Nat) (buffer : List Nat) (evs : List TEvent) (dl : Nat), buffer ≠ [] →
      (readLoop ct buffer buffer.length dl evs).buffer = buffer ∧
      (readLoop ct buffer buffer.length dl evs).count = buffer.length ∧
      ((readLoop ct buffer buffer.length dl evs).err = none ∨
        (readLoop ct buffer buffer.length dl evs).err = some .eof)) := by
  refine ⟨readLoop_full_chunk, ?_⟩
  intro ct buffer evs
  induction evs with
  | nil =>
    intro dl hb
    have h0 : 0 < buffer.length := List.length_pos.2 hb
    simp [readLoop, timerResult, h0]
  | cons e rest ih =>
    intro dl hb
    match e with
    | .chunk t d =>
      by_cases ht : t < dl
      · rw [readLoop_full_chunk ct dl t buffer d rest ht]
        exact ih (t + ct) hb
      · have h0 : 0 < buffer.length := List.length_pos.2 hb
        simp [readLoop, ht, timerResult, h0]
    | .closeq t =>
      by_cases ht : t < dl
      · simp [readLoop, ht, copyLoop]
      · have h0 : 0 < buffer.length := List.length_pos.2 hb
        simp [readLoop, ht, timerResult, h0]

/-- Concrete instance of C10: a full one-byte buffer, a late chunk wholly
discarded, success returned at the following quiet deadline. -/
theorem c10_full_buffer_loops_witness :
    ((2 : Nat) < 9 ∧
      readLoop 4 [7] ([7] : List Nat).length 9 [.chunk 2 [8], .closeq 99] =
        readLoop 4 [7] ([7] : List Nat).length (2 + 4) [.closeq 99]) ∧
    (([7] : List Nat) ≠ [] ∧
      (readLoop 4 [7] ([7] : List Nat).length 9 [.chunk 2 [8], .closeq 99]).buffer = [7] ∧
      (readLoop 4 [7] ([7] : List Nat).length 9 [.chunk 2 [8], .closeq 99]).count =
        ([7] : List Nat).length ∧
      ((readLoop 4 [7] ([7] : List Nat).length 9 [.chunk 2 [8], .closeq 99]).err = none ∨
        (readLoop 4 [7] ([7] : List Nat).length 9 [.chunk 2 [8], .closeq 99]).err =
          some .eof)) :=
  ⟨⟨by decide, c10_full_buffer_loops.1 4 9 2 [7] [8] [.closeq 99] (by decide)⟩,
    by decide,
    c10_full_buffer_loops.2 4 [7] [.chunk 2 [8], .closeq 99] 9 (by decide)⟩

/-- C2: a chunk longer than the remaining buffer space contributes exactly
the buffer-filling `min (chunk length) (remaining space)` bytes — its
leading `remaining space` bytes — and its excess is gone for good: the
current call, its leftover event stream, and hence every subsequent `Read`
on that stream are identical for any two such chunks agreeing on the copied
part only. -/
theorem c2_excess_discarded (ct dl t count : Nat) (buffer d d' : List Nat)
    (rest : List TEvent)
    (hcount : count ≤ buffer.length)
    (hd : buffer.length - count < d.length)
    (hd' : buffer.length - count < d'.length)
    (hpre : d.take (buffer.length - count) = d'.take (buffer.length - count))
    (ht : t < dl) :
    (copyLoop buffer count d).2 = count + min d.length (buffer.length - count) ∧
    (copyLoop buffer count d).2 = buffer.length ∧
    (copyLoop buffer count d).1 = buffer.take count ++ d.take (buffer.length - count) ∧
    readLoop ct buffer count dl (.chunk t d :: rest) =
      readLoop ct buffer count dl (.chunk t d' :: rest) ∧
    (∀ (rr : ResponseReader) (buf2 : List Nat),
      rr.Read buf2 (readLoop ct buffer count dl (.chunk t d :: rest)).pending =
        rr.Read buf2 (readLoop ct buffer count dl (.chunk t d' :: rest)).pending) := by
  have hmin : min d.length (buffer.length - count) = buffer.length - count := by omega
  have hmin' : min d'.length (buffer.length - count) = buffer.length - count := by omega
  have hs := copyLoop_spec d buffer count hcount
  have hs' := copyLoop_spec d' buffer count hcount
  rw [hmin] at hs
  rw [hmin'] at hs'
  have heq : copyLoop buffer count d = copyLoop buffer count d' := by
    rw [hs, hs', hpre]
  have hloop : readLoop ct buffer count dl (.chunk t d :: rest) =
      readLoop ct buffer count dl (.chunk t d' :: rest) := by
    rw [readLoop, if_pos ht, heq]
    rw [show readLoop ct buffer count dl (.chunk t d' :: rest) =
        readLoop ct (copyLoop buffer count d').1 (copyLoop buffer count d').2 (t + ct) rest
      from by rw [readLoop, if_pos ht]]
  refine ⟨?_, ?_, ?_, hloop, ?_⟩
  · rw [hs, hmin]
  · rw [hs]
    show count + (buffer.length - count) = buffer.length
    omega
  · rw [hs]
    show buffer.take count ++ d.take (buffer.length - count) ++
        buffer.drop (count + (buffer.length - count)) = _
    rw [show count + (buffer.length - count) = buffer.length from by omega,
      List.drop_length, List.append_nil]
  · intro rr buf2
    rw [hloop]

/-- Concrete instance of C2: a 3-byte chunk into a 2-byte buffer; its third
byte (8 vs 9) makes no difference to this or any later call. -/
theorem c2_excess_discarded_witness :
    ((0 : Nat) ≤ ([0, 0] : List Nat).length ∧
      ([0, 0] : List Nat).length - 0 < ([5, 6, 8] : List Nat).length ∧
      ([0, 0] : List Nat).length - 0 < ([5, 6, 9] : List Nat).length ∧
      ([5, 6, 8] : List Nat).take (([0, 0] : List Nat).length - 0) =
        ([5, 6, 9] : List Nat).take (([0, 0] : List Nat).length - 0) ∧
      (1 : Nat) < 10) ∧
    ((copyLoop [0, 0] 0 [5, 6, 8]).2 =
        0 + min ([5, 6, 8] : List Nat).length (([0, 0] : List Nat).length - 0) ∧
      (copyLoop [0, 0] 0 [5, 6, 8]).2 = ([0, 0] : List Nat).length ∧
      (copyLoop [0, 0] 0 [5, 6, 8]).1 =
        ([0, 0] : List Nat).take 0 ++ ([5, 6, 8] : List Nat).take (([0, 0] : List Nat).length - 0) ∧
      readLoop 3 [0, 0] 0 10 [.chunk 1 [5, 6, 8], .closeq 2] =
        readLoop 3 [0, 0] 0 10 [.chunk 1 [5, 6, 9], .closeq 2] ∧
      (∀ (rr : ResponseReader) (buf2 : List Nat),
        rr.Read buf2 (readLoop 3 [0, 0] 0 10 [.chunk 1 [5, 6, 8], .closeq 2]).pending =
          rr.Read buf2 (readLoop 3 [0, 0] 0 10 [.chunk 1 [5, 6, 9], .closeq 2]).pending)) :=
  ⟨⟨by decide, by decide, by decide, by decide, by decide⟩,
    c2_excess_discarded 3 10 1 0 [0, 0] [5, 6, 8] [5, 6, 9] [.closeq 2]
      (by decide) (by decide) (by decide) (by decide) (by decide)⟩

/-! Flush never times out. -/

theorem flushLoop_no_timeout : ∀ (evs : List TEvent) (ct count dl : Nat),
    (flushLoop ct count dl evs).err ≠ some .errorTimeout := by
  intro evs
  induction evs with
  | nil =>
    intro ct count dl
    simp [flushLoop]
  | cons e rest ih =>
    intro ct count dl
    match e with
    | .chunk t d =>
      by_cases ht : t < dl
      · rw [flushLoop, if_pos ht]
        exact ih ct (count + d.length) (t + ct)
      · rw [flushLoop, if_neg ht]
        simp
    | .closeq t =>
      by_cases ht : t < dl
      · rw [flushLoop, if_pos ht]
        simp
      · rw [flushLoop, if_neg ht]
        simp

/-- C5: `Flush` is governed only by `chunkTimeout` (two engines agreeing on
`chunkTimeout` flush identically, whatever their overall timeouts; its timer
starts at `chunkTimeout`); each chunk beating the timer adds its length to
the discard count and resets the deadline; queue-closed returns the count
with `io.EOF`; timer expiry returns the count with a nil error; and no
`Flush` ever returns `ErrorTimeout`. -/
theorem c5_flush_contract :
    (∀ (rr rr' : ResponseReader) (evs : List TEvent), rr.chunkTimeout = rr'.chunkTimeout →
      rr.Flush evs = rr'.Flush evs) ∧
    (∀ (rr : ResponseReader) (evs : List TEvent),
      rr.Flush evs = flushLoop rr.chunkTimeout 0 rr.chunkTimeout evs) ∧
    (∀ (ct count dl t : Nat) (d : List Nat) (rest : List TEvent), t < dl →
      flushLoop ct count dl (.chunk t d :: rest) =
        flushLoop ct (count + d.length) (t + ct) rest) ∧
    (∀ (ct count dl t : Nat) (rest : List TEvent), t < dl →
      flushLoop ct count dl (.closeq t :: rest) = ⟨count, some .eof, rest⟩) ∧
    (∀ (ct count dl : Nat) (evs : List TEvent), timerFirst dl evs →
      flushLoop ct count dl evs = ⟨count, none, evs⟩) ∧
    (∀ (ct count dl : Nat) (evs : List TEvent),
      (flushLoop ct count dl evs).err ≠ some .errorTimeout) := by
  refine ⟨?_, ?_, ?_, ?_, ?_, ?_⟩
  · intro rr rr' evs h
    unfold ResponseReader.Flush
    rw [h]
  · intro rr evs
    rfl
  · intro ct count dl t d rest ht
    rw [flushLoop, if_pos ht]
  · intro ct count dl t rest ht
    rw [flushLoop, if_pos ht]
    simp
  · intro ct count dl evs h
    exact flushLoop_of_timerFirst ct count dl evs h
  · intro ct count dl evs
    exact flushLoop_no_timeout evs ct count dl

/-- Concrete instance of C5: two engines differing only in the overall
timeout flush the same; one chunk then quiescence yields its length with a
nil error. -/
theorem c5_flush_contract_witness :
    ((NewResponseReader 50 4).chunkTimeout = (NewResponseReader 7 4).chunkTimeout ∧
      (NewResponseReader 50 4).Flush [.chunk 1 [1, 2, 3]] =
        (NewResponseReader 7 4).Flush [.chunk 1 [1, 2, 3]]) ∧
    ((1 : Nat) < 4 ∧
      flushLoop 4 0 4 [.chunk 1 [1, 2, 3]] = flushLoop 4 (0 + 3) (1 + 4) []) ∧
    ((2 : Nat) < 5 ∧ flushLoop 4 0 5 [.closeq 2] = ⟨0, some .eof, []⟩) ∧
    (timerFirst 4 ([] : List TEvent) ∧ flushLoop 4 3 4 [] = ⟨3, none, []⟩) ∧
    (flushLoop 4 0 4 [.closeq 1] ≠ ⟨0, some .errorTimeout, []⟩) :=
  ⟨⟨by decide, c5_flush_contract.1 (NewResponseReader 50 4) (NewResponseReader 7 4)
      [.chunk 1 [1, 2, 3]] (by decide)⟩,
    ⟨by decide, by
      have h := c5_flush_contract.2.2.1 4 0 4 1 [1, 2, 3] [] (by decide)
      simpa using h⟩,
    ⟨by decide, c5_flush_contract.2.2.2.1 4 0 5 2 [] (by decide)⟩,
    ⟨by decide, c5_flush_contract.2.2.2.2.1 4 3 4 [] (by decide)⟩,
    by decide⟩

/-- C6: `Write` on either duplex adapter flushes first; a flush error is
returned as-is and the underlying writer is not consulted (the result is the
same for every writer function), while a clean flush forwards the caller's
buffer — and only it — to the underlying writer and returns that result
verbatim. -/
theorem c6_write_flushes_first :
    (∀ (rrw : ResponseReadWriter) (buffer : List Nat) (evs : List TEvent) (e : GoError),
      (rrw.reader.Flush evs).err = some e →
      rrw.Write buffer evs = ((rrw.reader.Flush evs).count, some e) ∧
      (∀ w' : List Nat → Nat × Option GoError,
        ResponseReadWriter.Write ⟨w', rrw.reader⟩ buffer evs = rrw.Write buffer evs)) ∧
    (∀ (rrw : ResponseReadWriter) (buffer : List Nat) (evs : List TEvent),
      (rrw.reader.Flush evs).err = none →
      rrw.Write buffer evs = rrw.writer buffer) ∧
    (∀ (rrwc : ResponseReadWriteCloser) (buffer : List Nat) (evs : List TEvent) (e : GoError),
      (rrwc.reader.Flush evs).err = some e →
      rrwc.Write buffer evs = ((rrwc.reader.Flush evs).count, some e) ∧
      (∀ w' : List Nat → Nat × Option GoError,
        ResponseReadWriteCloser.Write ⟨rrwc.closer, w', rrwc.reader⟩ buffer evs =
          rrwc.Write buffer evs)) ∧
    (∀ (rrwc : ResponseReadWriteCloser) (buffer : List Nat) (evs : List TEvent),
      (rrwc.reader.Flush evs).err = none →
      rrwc.Write buffer evs = rrwc.writer buffer) := by
  refine ⟨?_, ?_, ?_, ?_⟩
  · intro rrw buffer evs e h
    constructor
    · unfold ResponseReadWriter.Write
      rw [h]
    · intro w'
      unfold ResponseReadWriter.Write
      rw [show (ResponseReadWriter.mk w' rrw.reader).reader = rrw.reader from rfl, h]
  · intro rrw buffer evs h
    unfold ResponseReadWriter.Write
    rw [h]
  · intro rrwc buffer evs e h
    constructor
    · unfold ResponseReadWriteCloser.Write
      rw [h]
    · intro w'
      unfold ResponseReadWriteCloser.Write
      rw [show (ResponseReadWriteCloser.mk rrwc.closer w' rrwc.reader).reader = rrwc.reader
        from rfl, h]
  · intro rrwc buffer evs h
    unfold ResponseReadWriteCloser.Write
    rw [h]

/-- Concrete instance of C6: a closing queue makes the flush report `io.EOF`
and the prompt is not written; with a quiet queue the write goes through. -/
theorem c6_write_flushes_first_witness :
    (((NewResponseReadWriter (fun b => (b.length, none)) 9 4).reader.Flush
        [.closeq 1]).err = some .eof ∧
      ((NewResponseReadWriter (fun b => (b.length, none)) 9 4).Write [1, 2] [.closeq 1] =
        (((NewResponseReadWriter (fun b => (b.length, none)) 9 4).reader.Flush
          [.closeq 1]).count, some .eof) ∧
        (∀ w' : List Nat → Nat × Option GoError,
          ResponseReadWriter.Write
            ⟨w', (NewResponseReadWriter (fun b => (b.length, none)) 9 4).reader⟩
            [1, 2] [.closeq 1] =
          (NewResponseReadWriter (fun b => (b.length, none)) 9 4).Write [1, 2] [.closeq 1]))) ∧
    (((NewResponseReadWriter (fun b => (b.length, none)) 9 4).reader.Flush []).err = none ∧
      (NewResponseReadWriter (fun b => (b.length, none)) 9 4).Write [1, 2] [] =
        (NewResponseReadWriter (fun b => (b.length, none)) 9 4).writer [1, 2]) :=
  ⟨⟨by decide,
      c6_write_flushes_first.1 (NewResponseReadWriter (fun b => (b.length, none)) 9 4)
        [1, 2] [.closeq 1] .eof (by decide)⟩,
    by decide,
    c6_write_flushes_first.2.1 (NewResponseReadWriter (fun b => (b.length, none)) 9 4)
      [1, 2] [] (by decide)⟩

/-- C7 counterexample: the adapters forward every `Close` to the underlying
closer verbatim, so an underlying closer that fails persistently (here
always returning the same error) makes a repeated adapter `Close` return the
error again — the claim that a repeated `Close` does not return the error a
second time is false on the code. -/
theorem c7_close_error_repeats :
    (ResponseReadCloser.Close
        ⟨⟨fun _ => some (.underlying "busy"), 0⟩, NewResponseReader 5 2⟩).1 =
      some (.underlying "busy") ∧
    (ResponseReadCloser.Close
        (ResponseReadCloser.Close
          ⟨⟨fun _ => some (.underlying "busy"), 0⟩, NewResponseReader 5 2⟩).2).1 =
      some (.underlying "busy") ∧
    (ResponseReadWriteCloser.Close
        ⟨⟨fun _ => some (.underlying "busy"), 0⟩, fun b => (b.length, none),
          NewResponseReader 5 2⟩).1 =
      some (.underlying "busy") ∧
    (ResponseReadWriteCloser.Close
        (ResponseReadWriteCloser.Close
          ⟨⟨fun _ => some (.underlying "busy"), 0⟩, fun b => (b.length, none),
            NewResponseReader 5 2⟩).2).1 =
      some (.underlying "busy") :=
  ⟨rfl, rfl, rfl, rfl⟩

/-- C7 amended: on both closing adapters, `Close` sets the engine's `closed`
flag (a repeat leaves it set: the flag update is idempotent) and then
forwards the call to the underlying closer, returning its result verbatim;
an error from the underlying close is returned exactly once provided the
underlying closer itself reports it only on its first call — the adapter
does not suppress a repeated error. -/
theorem c7_close_forwards (rrc : ResponseReadCloser) (rrwc : ResponseReadWriteCloser) :
    (rrc.Close.1 = rrc.closer.results rrc.closer.calls ∧
      rrc.Close.2.reader = { rrc.reader with closed := true } ∧
      rrc.Close.2.closer.calls = rrc.closer.calls + 1 ∧
      rrc.Close.2.Close.2.reader = rrc.Close.2.reader) ∧
    (rrwc.Close.1 = rrwc.closer.results rrwc.closer.calls ∧
      rrwc.Close.2.reader = { rrwc.reader with closed := true } ∧
      rrwc.Close.2.closer.calls = rrwc.closer.calls + 1 ∧
      rrwc.Close.2.Close.2.reader = rrwc.Close.2.reader) ∧
    ((∀ n, 0 < n → rrc.closer.results n = none) → rrc.closer.calls = 0 →
      rrc.Close.1 = rrc.closer.results 0 ∧ rrc.Close.2.Close.1 = none) := by
  refine ⟨⟨rfl, rfl, rfl, rfl⟩, ⟨rfl, rfl, rfl, rfl⟩, ?_⟩
  intro h1 h2
  constructor
  · show rrc.closer.results rrc.closer.calls = rrc.closer.results 0
    rw [h2]
  · show rrc.closer.results (rrc.closer.calls + 1) = none
    exact h1 (rrc.closer.calls + 1) (Nat.succ_pos _)

/-- Concrete instance of C7 amended: a closer failing only on its first
close; the adapter returns the error once and then nil. -/
theorem c7_close_forwards_witness :
    ((∀ n, 0 < n →
        (Closer.mk (fun n => if n = 0 then some (.underlying "boom") else none) 0).results n
          = none) ∧
      (Closer.mk (fun n => if n = 0 then some (.underlying "boom") else none) 0).calls = 0) ∧
    ((ResponseReadCloser.Close
        ⟨⟨fun n => if n = 0 then some (.underlying "boom") else none, 0⟩,
          NewResponseReader 5 2⟩).1 =
      (Closer.mk (fun n => if n = 0 then some (.underlying "boom") else none) 0).results 0 ∧
      (ResponseReadCloser.Close
        (ResponseReadCloser.Close
          ⟨⟨fun n => if n = 0 then some (.underlying "boom") else none, 0⟩,
            NewResponseReader 5 2⟩).2).1 = none) :=
  ⟨⟨fun n hn => if_neg (by omega), rfl⟩,
    (c7_close_forwards
      ⟨⟨fun n => if n = 0 then some (.underlying "boom") else none, 0⟩,
        NewResponseReader 5 2⟩
      ⟨⟨fun _ => none, 0⟩, fun b => (b.length, none), NewResponseReader 5 2⟩).2.2
      (fun n hn => if_neg (by omega)) rfl⟩

/-! Lemmas about the byte pump. -/

theorem readInput_mem : ∀ (calls : List ReadCall) (closedAt : Option Nat) (i : Nat)
    (ch : List Nat), ch ∈ (readInput closedAt i calls).1 →
    ∃ c ∈ calls, ch = c.bytes.take c.length ∧ 0 < c.length := by
  intro calls
  induction calls with
  | nil =>
    intro closedAt i ch h
    rw [readInput] at h
    by_cases hc : closedObserved closedAt i = true
    · rw [if_pos hc] at h
      simp at h
    · rw [if_neg hc] at h
      simp at h
  | cons c rest ih =>
    intro closedAt i ch h
    rw [readInput] at h
    by_cases hc : closedObserved closedAt i = true
    · rw [if_pos hc] at h
      simp at h
    · rw [if_neg hc] at h
      by_cases hl : 0 < c.length
      · rw [if_pos hl] at h
        rcases List.mem_cons.1 h with h1 | h1
        · exact ⟨c, List.mem_cons_self c rest, h1, hl⟩
        · obtain ⟨c', hc', hch⟩ := ih closedAt (i + 1) ch h1
          exact ⟨c', List.mem_cons_of_mem c hc', hch⟩
      · rw [if_neg hl] at h
        obtain ⟨c', hc', hch⟩ := ih closedAt (i + 1) ch h
        exact ⟨c', List.mem_cons_of_mem c hc', hch⟩

theorem readInput_err_irrelevant : ∀ (calls calls' : List ReadCall) (closedAt : Option Nat)
    (i : Nat), calls.map rcView = calls'.map rcView →
    readInput closedAt i calls = readInput closedAt i calls' := by
  intro calls
  induction calls with
  | nil =>
    intro calls' closedAt i h
    cases calls' with
    | nil => rfl
    | cons c' rest' => simp [rcView] at h
  | cons c rest ih =>
    intro calls' closedAt i h
    cases calls' with
    | nil => simp [rcView] at h
    | cons c' rest' =>
      simp only [List.map_cons, List.cons.injEq] at h
      have hb : c.bytes = c'.bytes := congrArg Prod.fst h.1
      have hl : c.length = c'.length := congrArg Prod.snd h.1
      rw [readInput, readInput, ih rest' closedAt (i + 1) h.2, hb, hl]

theorem readInput_closed_source : ∀ (calls : List ReadCall) (closedAt : Option Nat)
    (i : Nat), (readInput closedAt i calls).2 = true →
    ∃ k, closedAt = some k ∧ k ≤ i + calls.length := by
  intro calls
  induction calls with
  | nil =>
    intro closedAt i h
    rw [readInput] at h
    by_cases hc : closedObserved closedAt i = true
    · cases closedAt with
      | none => simp [closedObserved] at hc
      | some k =>
        refine ⟨k, rfl, ?_⟩
        simp only [closedObserved, decide_eq_true_eq] at hc
        omega
    · rw [if_neg hc] at h
      simp at h
  | cons c rest ih =>
    intro closedAt i h
    rw [readInput] at h
    by_cases hc : closedObserved closedAt i = true
    · cases closedAt with
      | none => simp [closedObserved] at hc
      | some k =>
        refine ⟨k, rfl, ?_⟩
        simp only [closedObserved, decide_eq_true_eq] at hc
        simp only [List.length_cons]
        omega
    · rw [if_neg hc] at h
      have h2 : (readInput closedAt (i + 1) rest).2 = true := by
        by_cases hl : 0 < c.length
        · rw [if_pos hl] at h
          exact h
        · rw [if_neg hl] at h
          exact h
      obtain ⟨k, hk, hle⟩ := ih closedAt (i + 1) h2
      refine ⟨k, hk, ?_⟩
      simp only [List.length_cons]
      omega

theorem readInput_take_closed : ∀ (calls : List ReadCall) (k i : Nat),
    readInput (some k) i calls = readInput (some k) i (calls.take (k - i)) := by
  intro calls
  induction calls with
  | nil =>
    intro k i
    rw [List.take_nil]
  | cons c rest ih =>
    intro k i
    by_cases hk : k ≤ i
    · have h0 : k - i = 0 := by omega
      have hc : closedObserved (some k) i = true := by
        simp only [closedObserved, decide_eq_true_eq]
        omega
      rw [h0, List.take_zero, readInput, readInput, if_pos hc, if_pos hc]
    · have hc : ¬ closedObserved (some k) i = true := by
        simp only [closedObserved, decide_eq_true_eq]
        omega
      have hpos : k - i = (k - (i + 1)) + 1 := by omega
      rw [hpos, List.take_succ_cons, readInput, readInput, if_neg hc, if_neg hc,
        ih k (i + 1)]

/-- C9: every chunk the pump delivers is a non-empty truncation
`tmp[0:length]` of one underlying read with at most `size = 128` bytes (given
the `io.Reader` contract on a 128-byte scratch buffer); the errors of the
underlying reads never influence what is delivered; the queue is closed only
when the pump has observed `closed = true` (at an iteration it actually
reached); and once the flag is observed at iteration `k`, the delivered
chunks come from the first `k` reads only — nothing follows the close. -/
theorem c9_pump_invariant (closedAt : Option Nat) (calls : List ReadCall)
    (hc : ∀ c ∈ calls, c.length ≤ c.bytes.length ∧ c.bytes.length = 128) :
    (∀ t ct, (NewResponseReader t ct).size = 128) ∧
    (∀ ch ∈ (readInput closedAt 0 calls).1,
      ch ≠ [] ∧ ch.length ≤ 128 ∧ ∃ c ∈ calls, ch = c.bytes.take c.length ∧ 0 < c.length) ∧
    (∀ calls' : List ReadCall, calls.map rcView = calls'.map rcView →
      readInput closedAt 0 calls = readInput closedAt 0 calls') ∧
    ((readInput closedAt 0 calls).2 = true → ∃ k, closedAt = some k ∧ k ≤ calls.length) ∧
    (∀ k, closedAt = some k →
      readInput closedAt 0 calls = readInput closedAt 0 (calls.take k)) := by
  refine ⟨fun t ct => rfl, ?_, ?_, ?_, ?_⟩
  · intro ch hch
    obtain ⟨c, hcin, hcheq, hlen⟩ := readInput_mem calls closedAt 0 ch hch
    obtain ⟨hle, h128⟩ := hc c hcin
    have htk : ch.length = c.length := by
      rw [hcheq, List.length_take]
      omega
    refine ⟨?_, ?_, c, hcin, hcheq, hlen⟩
    · intro hnil
      rw [hnil] at htk
      simp at htk
      omega
    · omega
  · intro calls' h
    exact readInput_err_irrelevant calls calls' closedAt 0 h
  · intro h
    obtain ⟨k, hk, hle⟩ := readInput_closed_source calls closedAt 0 h
    exact ⟨k, hk, by omega⟩
  · intro k hk
    subst hk
    have := readInput_take_closed calls k 0
    simpa using this

/-- Concrete instance of C9: two reads — a 3-byte one and a zero-byte one —
with the close observed at iteration 2. -/
theorem c9_pump_invariant_witness :
    (∀ c ∈ [ReadCall.mk (List.replicate 128 7) 3 (some (.underlying "x")),
        ReadCall.mk (List.replicate 128 0) 0 none],
      c.length ≤ c.bytes.length ∧ c.bytes.length = 128) ∧
    ((∀ t ct, (NewResponseReader t ct).size = 128) ∧
      (∀ ch ∈ (readInput (some 2) 0
          [ReadCall.mk (List.replicate 128 7) 3 (some (.underlying "x")),
            ReadCall.mk (List.replicate 128 0) 0 none]).1,
        ch ≠ [] ∧ ch.length ≤ 128 ∧
        ∃ c ∈ [ReadCall.mk (List.replicate 128 7) 3 (some (.underlying "x")),
            ReadCall.mk (List.replicate 128 0) 0 none],
          ch = c.bytes.take c.length ∧ 0 < c.length) ∧
      (∀ calls' : List ReadCall,
        ([ReadCall.mk (List.replicate 128 7) 3 (some (.underlying "x")),
          ReadCall.mk (List.replicate 128 0) 0 none]).map rcView = calls'.map rcView →
        readInput (some 2) 0
            [ReadCall.mk (List.replicate 128 7) 3 (some (.underlying "x")),
              ReadCall.mk (List.replicate 128 0) 0 none] =
          readInput (some 2) 0 calls') ∧
      ((readInput (some 2) 0
          [ReadCall.mk (List.replicate 128 7) 3 (some (.underlying "x")),
            ReadCall.mk (List.replicate 128 0) 0 none]).2 = true →
        ∃ k, (some 2 : Option Nat) = some k ∧
          k ≤ ([ReadCall.mk (List.replicate 128 7) 3 (some (.underlying "x")),
            ReadCall.mk (List.replicate 128 0) 0 none] : List ReadCall).length) ∧
      (∀ k, (some 2 : Option Nat) = some k →
        readInput (some 2) 0
            [ReadCall.mk (List.replicate 128 7) 3 (some (.underlying "x")),
              ReadCall.mk (List.replicate 128 0) 0 none] =
          readInput (some 2) 0
            (([ReadCall.mk (List.replicate 128 7) 3 (some (.underlying "x")),
              ReadCall.mk (List.replicate 128 0) 0 none] : List ReadCall).take k))) :=
  ⟨by
      intro c hcm
      rcases List.mem_cons.1 hcm with h | h
      · subst h
        exact ⟨by simp, by simp⟩
      · rw [List.mem_singleton] at h
        subst h
        exact ⟨by simp, by simp⟩,
    c9_pump_invariant (some 2)
      [ReadCall.mk (List.replicate 128 7) 3 (some (.underlying "x")),
        ReadCall.mk (List.replicate 128 0) 0 none]
      (by
        intro c hcm
        rcases List.mem_cons.1 hcm with h | h
        · subst h
          exact ⟨by simp, by simp⟩
        · rw [List.mem_singleton] at h
          subst h
          exact ⟨by simp, by simp⟩)⟩

end Respreader
